import Mathlib

/-!
Verification development for the jain-sip-js header-parsing core of the
webrtcomm repository: a shallow embedding of `SupportedParser`,
`AuthorizationParser` and `ToParser` (from
`src/jain-sip-js/.../parser/SupportedParser.js`,
`.../parser/AuthorizationParser.js` and the `ToParser` source file),
together with the lexer / base-parser contract those files use.

The three `parse` bodies and the three constructors are translated line by
line from the JavaScript source.  The `Lexer`, `HeaderParser.headerName`,
`ChallengeParser.parse` and `AddressParametersParser.parse` collaborators are
not part of the provided sources; each of those definitions carries a doc
comment starting `Modelled from the spec:` and follows the specification's
contract for it (spec sections 4.1 to 4.5).
-/

/-- Token categories of the `TokenTypes` registry: the generic identifier
kind `ID`, quoted strings, single-character separators, and the keyword
kinds used by the three parsers (`SUPPORTED`, `AUTHORIZATION`, `TO`). -/
inductive TokenTypes where
  | ID
  | QUOTED
  | SEPARATOR
  | SUPPORTED
  | AUTHORIZATION
  | TO
  deriving DecidableEq

/-- A token: kind, literal value, and source offset (spec section 3). -/
structure Token where
  kind : TokenTypes
  value : String
  offset : Nat
  deriving DecidableEq

/-- Lexer state: the full input buffer, the cursor offset, the name of the
active keyword table (the lexer context), and the most recently matched
token (JAIN-SIP lexers record the token consumed by `match` so that the
following `getNextToken` call returns it). -/
structure Lexer where
  buffer : List Char
  ptr : Nat
  context : String
  currentMatched : Option Token
  deriving DecidableEq

/-- The parse-failure taxonomy of spec section 7, each failure carrying the
offending offset, plus a fuel-exhaustion marker used by the loop embeddings
(proved unreachable for the supported-list parser). -/
inductive ParseError where
  | headerNameMismatch (expected : TokenTypes) (actual : String) (offset : Nat)
  | unexpectedToken (expected : TokenTypes) (actual : String) (offset : Nat)
  | unexpectedChar (expected : Char) (actual : Char) (offset : Nat)
  | malformedAddress (offset : Nat)
  | malformedAuthParam (actual : String) (offset : Nat)
  | prematureEnd (offset : Nat)
  | fuelExhausted
  deriving DecidableEq

/-- `new Lexer(context, input)`: a fresh lexer over a standalone input
string, cursor at offset 0. -/
def Lexer.ofString (ctx : String) (s : String) : Lexer :=
  { buffer := s.data, ptr := 0, context := ctx, currentMatched := none }

/-- Advance the cursor by `k` characters. -/
def Lexer.advance (lx : Lexer) (k : Nat) : Lexer :=
  { lx with ptr := lx.ptr + k }

/-- Modelled from the spec: `Lexer.selectLexer` (section 4.1) — switches the
active keyword table; does not move the cursor; fails with no error. -/
def Lexer.selectLexer (lx : Lexer) (ctx : String) : Lexer :=
  { lx with context := ctx }

/-- Modelled from the spec: `Lexer.lookAhead(n)` (section 4.1) — peeks the
character at offset `n` from the cursor without consuming. -/
def Lexer.lookAhead (lx : Lexer) (n : Nat) : Option Char :=
  (lx.buffer.drop (lx.ptr + n)).head?

/-- Modelled from the spec: `Lexer.SPorHT` (section 4.1) — consumes zero or
more linear-whitespace characters (space / horizontal tab) at the cursor. -/
def Lexer.SPorHT (lx : Lexer) : Lexer :=
  lx.advance ((lx.buffer.drop lx.ptr).takeWhile (fun c => c == ' ' || c == '\t')).length

/-- Characters that may form an identifier-shaped lexeme (SIP token
characters: alphanumerics and a few symbols). -/
def isIdentChar (c : Char) : Bool :=
  c.isAlphanum || c == '-' || c == '_' || c == '.' || c == '!' || c == '%' ||
    c == '*' || c == '+' || c == '~'

/-- Modelled from the spec: the per-context keyword table (sections 3 and
4.1) — under the `command_keywordLexer` context an identifier-shaped lexeme
that case-insensitively equals a registered header keyword is reported with
that keyword's kind, otherwise as a generic `ID`. -/
def keywordKind (ctx : String) (word : String) : TokenTypes :=
  if ctx = "command_keywordLexer" then
    let w : List Char := word.data.map Char.toLower
    if w = "supported".data then TokenTypes.SUPPORTED
    else if w = "authorization".data then TokenTypes.AUTHORIZATION
    else if w = "to".data then TokenTypes.TO
    else TokenTypes.ID
  else TokenTypes.ID

/-- Modelled from the spec: the scanning step of `Lexer.getNextToken`
(section 4.1) — scans one lexeme under the active context (keyword
recognition, identifier runs, quoted strings, single-character separators)
and returns it with its source offset, advancing the cursor. -/
def Lexer.scanToken (lx : Lexer) : Except ParseError (Token × Lexer) :=
  match lx.buffer.drop lx.ptr with
  | [] => .error (.prematureEnd lx.ptr)
  | c :: cs =>
    if isIdentChar c then
      let run := c :: cs.takeWhile isIdentChar
      .ok (⟨keywordKind lx.context ⟨run⟩, ⟨run⟩, lx.ptr⟩, lx.advance run.length)
    else if c == '\"' then
      if (cs.takeWhile (fun d => d != '\"')).length < cs.length then
        .ok (⟨TokenTypes.QUOTED, ⟨cs.takeWhile (fun d => d != '\"')⟩, lx.ptr⟩,
          lx.advance ((cs.takeWhile (fun d => d != '\"')).length + 2))
      else .error (.prematureEnd lx.ptr)
    else
      .ok (⟨TokenTypes.SEPARATOR, ⟨[c]⟩, lx.ptr⟩, lx.advance 1)

/-- Modelled from the spec: `Lexer.match` on a single expected character
(section 4.1) — consumes the next character only if it equals `c`, failing
with an UnexpectedCharacter error carrying expected vs. actual and the
offset. -/
def Lexer.matchChar (lx : Lexer) (c : Char) : Except ParseError Lexer :=
  match lx.lookAhead 0 with
  | none => .error (.prematureEnd lx.ptr)
  | some a => if a == c then .ok (lx.advance 1) else .error (.unexpectedChar c a lx.ptr)

/-- Modelled from the spec: `Lexer.match` on an expected token kind
(section 4.1) — scans the next token, fails with UnexpectedToken (expected
vs. actual, offending offset) on a kind mismatch, and otherwise consumes it,
recording it as the current matched token. -/
def Lexer.matchToken (lx : Lexer) (k : TokenTypes) : Except ParseError Lexer :=
  match lx.scanToken with
  | .error e => .error e
  | .ok (t, lx1) =>
    if t.kind = k then .ok { lx1 with currentMatched := some t }
    else .error (.unexpectedToken k t.value t.offset)

/-- Modelled from the spec: `Lexer.getNextToken` (section 4.1) — returns the
token most recently consumed by `match`, or scans a fresh lexeme when no
matched token is pending. -/
def Lexer.getNextToken (lx : Lexer) : Except ParseError (Token × Lexer) :=
  match lx.currentMatched with
  | some t => .ok (t, { lx with currentMatched := none })
  | none => lx.scanToken

/-- Modelled from the spec: `HeaderParser.headerName(expectedKind)`
(section 4.2) — matches the header-name token case-insensitively against
`expectedKind` (via the keyword table), then consumes the separator and the
following whitespace; fails with HeaderNameMismatch otherwise. -/
def HeaderParser.headerName (lx : Lexer) (expected : TokenTypes) : Except ParseError Lexer :=
  match lx.scanToken with
  | .error e => .error e
  | .ok (t, lx1) =>
    if t.kind = expected then
      match lx1.matchChar ':' with
      | .error e => .error e
      | .ok lx2 => .ok lx2.SPorHT
    else .error (.headerNameMismatch expected t.value t.offset)

/-- One element of a supported-options list (`Supported` header value):
`new Supported()` starts with neither field set; `setHeaderName` and
`setOptionTag` fill them. -/
structure Supported where
  headerName : Option String
  optionTag : Option String
  deriving DecidableEq

/-- The option-tag getter: the tag carried by a `Supported` element. -/
def Supported.getOptionTag (s : Supported) : String :=
  s.optionTag.getD ""

/-- `SupportedParser.prototype.SUPPORTED`. -/
def SupportedParser.SUPPORTED : String := "Supported"

/-- The inner comma-continuation loop of `SupportedParser.prototype.parse`
(source lines 64-73): while the lookahead is a comma, match the comma, skip
whitespace, build a fresh `Supported`, match an `ID` token, take it as the
option tag, skip whitespace and append.  The fuel argument bounds the
iteration count and is proved sufficient below. -/
def supportedInner (fuel : Nat) (lx : Lexer) (acc : List Supported) :
    Except ParseError (List Supported × Lexer) :=
  match fuel with
  | 0 => .error .fuelExhausted
  | fuel + 1 =>
    if lx.lookAhead 0 = some ',' then
      match lx.matchChar ',' with
      | .error e => .error e
      | .ok lx1 =>
        match (lx1.SPorHT).matchToken TokenTypes.ID with
        | .error e => .error e
        | .ok lx2 =>
          match lx2.getNextToken with
          | .error e => .error e
          | .ok (tok, lx3) =>
            supportedInner fuel lx3.SPorHT (acc ++ [⟨none, some tok.value⟩])
    else .ok (acc, lx)

/-- The outer tag loop of `SupportedParser.prototype.parse` (source lines
55-75): while the lookahead is not the newline, skip whitespace, build a
`Supported` with its header name set, match an `ID` token, take its value as
the option tag, skip whitespace, append, then run the inner comma loop. -/
def supportedOuter (fuel : Nat) (lx : Lexer) (acc : List Supported) :
    Except ParseError (List Supported × Lexer) :=
  match fuel with
  | 0 => .error .fuelExhausted
  | fuel + 1 =>
    if lx.lookAhead 0 = some '\n' then .ok (acc, lx)
    else
      match (lx.SPorHT).matchToken TokenTypes.ID with
      | .error e => .error e
      | .ok lx2 =>
        match lx2.getNextToken with
        | .error e => .error e
        | .ok (tok, lx3) =>
          match supportedInner (lx3.SPorHT.buffer.length + 1) lx3.SPorHT
              (acc ++ [⟨some SupportedParser.SUPPORTED, some tok.value⟩]) with
          | .error e => .error e
          | .ok (acc2, lx5) => supportedOuter fuel lx5 acc2

/-- `SupportedParser.prototype.parse` (source lines 51-77): match the
`SUPPORTED` header name, then run the outer tag loop until the terminating
newline is the lookahead, returning the accumulated `SupportedList`. -/
def SupportedParser.parse (lx : Lexer) : Except ParseError (List Supported × Lexer) :=
  match HeaderParser.headerName lx TokenTypes.SUPPORTED with
  | .error e => .error e
  | .ok lx1 => supportedOuter (lx1.buffer.length + 1) lx1 []

/-- The string-argument constructor of `SupportedParser` (source lines
40-44): a fresh lexer over the input under the `command_keywordLexer`
context. -/
def SupportedParser.ofString (s : String) : Lexer :=
  Lexer.ofString "command_keywordLexer" s

/-- The lexer-argument constructor of `SupportedParser` (source lines
34-39): the borrowed lexer with its context switched to
`command_keywordLexer`. -/
def SupportedParser.ofLexer (lx : Lexer) : Lexer :=
  lx.selectLexer "command_keywordLexer"

/-- `new SupportedParser(s).parse()`. -/
def SupportedParser.parseString (s : String) : Except ParseError (List Supported × Lexer) :=
  SupportedParser.parse (SupportedParser.ofString s)

/-- An `Authorization` header value: the auth scheme plus the ordered
auth-parameter sequence (spec section 3: duplicates permitted, none
deduplicated or overwritten). -/
structure Authorization where
  scheme : String
  params : List (String × String)
  deriving DecidableEq

/-- Modelled from the spec: one auth-param of the authentication-challenge
sub-grammar (section 4.4), `auth-param = token '=' (token | quoted-string)`. -/
def authParamParse (lx : Lexer) : Except ParseError ((String × String) × Lexer) :=
  match lx.scanToken with
  | .error e => .error e
  | .ok (nameTok, lx1) =>
    if nameTok.kind = TokenTypes.ID then
      match lx1.matchChar '=' with
      | .error e => .error e
      | .ok lx2 =>
        match lx2.scanToken with
        | .error e => .error e
        | .ok (valTok, lx3) =>
          if valTok.kind = TokenTypes.ID ∨ valTok.kind = TokenTypes.QUOTED then
            .ok ((nameTok.value, valTok.value), lx3)
          else .error (.malformedAuthParam valTok.value valTok.offset)
    else .error (.malformedAuthParam nameTok.value nameTok.offset)

/-- Modelled from the spec: the comma-continuation loop of the challenge
sub-grammar (section 4.4) — while the lookahead is a comma: consume it, skip
optional whitespace, read the next auth-param, append. -/
def challengeInner (fuel : Nat) (lx : Lexer) (acc : List (String × String)) :
    Except ParseError (List (String × String) × Lexer) :=
  match fuel with
  | 0 => .error .fuelExhausted
  | fuel + 1 =>
    if lx.lookAhead 0 = some ',' then
      match lx.matchChar ',' with
      | .error e => .error e
      | .ok lx1 =>
        match authParamParse lx1.SPorHT with
        | .error e => .error e
        | .ok (p, lx2) => challengeInner fuel lx2 (acc ++ [p])
    else .ok (acc, lx)

/-- Modelled from the spec: `ChallengeParser.prototype.parse` (section 4.4)
— read the scheme token, then one auth-param, then the comma loop, keeping
all pairs in order. -/
def ChallengeParser.parse (lx : Lexer) : Except ParseError (Authorization × Lexer) :=
  match lx.scanToken with
  | .error e => .error e
  | .ok (schemeTok, lx1) =>
    match authParamParse lx1.SPorHT with
    | .error e => .error e
    | .ok (p, lx2) =>
      match challengeInner (lx2.buffer.length + 1) lx2 [p] with
      | .error e => .error e
      | .ok (ps, lx3) => .ok (⟨schemeTok.value, ps⟩, lx3)

/-- `AuthorizationParser.prototype.parse` (source lines 50-56): match the
`AUTHORIZATION` header name, then delegate the value to the challenge
sub-grammar and return the combined scheme-plus-params object. -/
def AuthorizationParser.parse (lx : Lexer) : Except ParseError (Authorization × Lexer) :=
  match HeaderParser.headerName lx TokenTypes.AUTHORIZATION with
  | .error e => .error e
  | .ok lx1 => ChallengeParser.parse lx1

/-- The string-argument constructor of `AuthorizationParser` (source lines
40-44). -/
def AuthorizationParser.ofString (s : String) : Lexer :=
  Lexer.ofString "command_keywordLexer" s

/-- The lexer-argument constructor of `AuthorizationParser` (source lines
34-39). -/
def AuthorizationParser.ofLexer (lx : Lexer) : Lexer :=
  lx.selectLexer "command_keywordLexer"

/-- `new AuthorizationParser(s).parse()`. -/
def AuthorizationParser.parseString (s : String) : Except ParseError (Authorization × Lexer) :=
  AuthorizationParser.parse (AuthorizationParser.ofString s)

/-- A `To` header value: optional display name, the required non-empty URI,
and the ordered generic-parameter list (spec section 3). -/
structure To where
  displayName : Option String
  uri : String
  params : List (String × Option String)
  deriving DecidableEq

/-- Modelled from the spec: the `name-addr` production of the external
address sub-parser (sections 4.3 and 6) — consume the `<`, take the
non-empty URI text up to the matching `>`, and consume the `>`. -/
def nameAddrParse (lx : Lexer) (d : Option String) :
    Except ParseError ((Option String × String) × Lexer) :=
  match lx.matchChar '<' with
  | .error e => .error e
  | .ok lx1 =>
    let content := (lx1.buffer.drop lx1.ptr).takeWhile (fun c => c != '>')
    if content.length < (lx1.buffer.drop lx1.ptr).length then
      if content.length = 0 then .error (.malformedAddress lx1.ptr)
      else
        match (lx1.advance content.length).matchChar '>' with
        | .error e => .error e
        | .ok lx2 => .ok ((d, ⟨content⟩), lx2)
    else .error (.malformedAddress lx1.ptr)

/-- Modelled from the spec: the address portion of the
address-with-parameters sub-grammar (sections 4.3 and 6),
`[display-name] ( name-addr | addr-spec )` — an optional quoted display
name followed by a `name-addr`, a bare `name-addr`, or an `addr-spec` run
of characters up to a delimiter; the URI must be non-empty. -/
def addressParse (lx0 : Lexer) : Except ParseError ((Option String × String) × Lexer) :=
  let lx := lx0.SPorHT
  match lx.lookAhead 0 with
  | none => .error (.prematureEnd lx.ptr)
  | some c =>
    if c == '<' then nameAddrParse lx none
    else if c == '\"' then
      match lx.scanToken with
      | .error e => .error e
      | .ok (dTok, lx1) => nameAddrParse lx1.SPorHT (some dTok.value)
    else
      let run := (lx.buffer.drop lx.ptr).takeWhile
        (fun d => d != ';' && d != '\n' && d != ' ' && d != '\t' && d != ',')
      if run.length = 0 then .error (.malformedAddress lx.ptr)
      else .ok ((none, ⟨run⟩), lx.advance run.length)

/-- Modelled from the spec: one generic-param (section 4.3),
`generic-param = token [ '=' (token | quoted-string) ]`. -/
def genericParamParse (lx : Lexer) : Except ParseError ((String × Option String) × Lexer) :=
  match lx.scanToken with
  | .error e => .error e
  | .ok (nameTok, lx1) =>
    if nameTok.kind = TokenTypes.ID then
      if lx1.lookAhead 0 = some '=' then
        match lx1.matchChar '=' with
        | .error e => .error e
        | .ok lx2 =>
          match lx2.scanToken with
          | .error e => .error e
          | .ok (valTok, lx3) =>
            if valTok.kind = TokenTypes.ID ∨ valTok.kind = TokenTypes.QUOTED then
              .ok ((nameTok.value, some valTok.value), lx3)
            else .error (.unexpectedToken TokenTypes.ID valTok.value valTok.offset)
      else .ok ((nameTok.value, none), lx1)
    else .error (.unexpectedToken TokenTypes.ID nameTok.value nameTok.offset)

/-- Modelled from the spec: the parameter loop of the
address-with-parameters sub-grammar (section 4.3) — while the lookahead is
`;`: consume the `;`, skip whitespace, parse one generic-param, append. -/
def addressParamsInner (fuel : Nat) (lx : Lexer) (acc : List (String × Option String)) :
    Except ParseError (List (String × Option String) × Lexer) :=
  match fuel with
  | 0 => .error .fuelExhausted
  | fuel + 1 =>
    if lx.lookAhead 0 = some ';' then
      match lx.matchChar ';' with
      | .error e => .error e
      | .ok lx1 =>
        match genericParamParse lx1.SPorHT with
        | .error e => .error e
        | .ok (p, lx2) => addressParamsInner fuel lx2 (acc ++ [p])
    else .ok (acc, lx)

/-- Modelled from the spec: `AddressParametersParser.prototype.parse`
(section 4.3) — delegate the address portion to the address sub-parser, then
collect the `;`-introduced generic parameters in order. -/
def AddressParametersParser.parse (lx : Lexer) : Except ParseError (To × Lexer) :=
  match addressParse lx with
  | .error e => .error e
  | .ok ((d, uri), lx1) =>
    match addressParamsInner (lx1.buffer.length + 1) lx1 [] with
    | .error e => .error e
    | .ok (ps, lx2) => .ok (⟨d, uri, ps⟩, lx2)

/-- `ToParser.prototype.parse` (ToParser source lines 50-57): match the `TO`
header name, delegate to the address-with-parameters sub-grammar, then match
the terminating newline. -/
def ToParser.parse (lx : Lexer) : Except ParseError (To × Lexer) :=
  match HeaderParser.headerName lx TokenTypes.TO with
  | .error e => .error e
  | .ok lx1 =>
    match AddressParametersParser.parse lx1 with
    | .error e => .error e
    | .ok (t, lx2) =>
      match lx2.matchChar '\n' with
      | .error e => .error e
      | .ok lx3 => .ok (t, lx3)

/-- The string-argument constructor of `ToParser` (ToParser source lines
40-44). -/
def ToParser.ofString (s : String) : Lexer :=
  Lexer.ofString "command_keywordLexer" s

/-- The lexer-argument constructor of `ToParser` (ToParser source lines
34-39). -/
def ToParser.ofLexer (lx : Lexer) : Lexer :=
  lx.selectLexer "command_keywordLexer"

/-- `new ToParser(s).parse()`. -/
def ToParser.parseString (s : String) : Except ParseError (To × Lexer) :=
  ToParser.parse (ToParser.ofString s)

/-- C3: `SupportedParser.parse` maps the conforming example inputs to the
stated option-tag lists, preserving order: `"Supported: 100rel\n"` yields
`["100rel"]`, `"Supported: 100rel, timer\n"` yields `["100rel", "timer"]`,
and `"Supported: \n"` yields the empty list. -/
theorem supportedParse_conforming_examples :
    (SupportedParser.parseString "Supported: 100rel\n").map
      (fun p => p.1.map Supported.getOptionTag) = .ok ["100rel"] ∧
    (SupportedParser.parseString "Supported: 100rel, timer\n").map
      (fun p => p.1.map Supported.getOptionTag) = .ok ["100rel", "timer"] ∧
    (SupportedParser.parseString "Supported: \n").map
      (fun p => p.1.map Supported.getOptionTag) = .ok [] :=
  ⟨rfl, rfl, rfl⟩

/-- C4: parsing `"Supported: ,timer\n"` (leading comma with no preceding
option-tag) fails with an UnexpectedToken error whose reported offset is 11,
the comma's input offset; no list value is returned. -/
theorem supportedParse_leading_comma_unexpectedToken :
    SupportedParser.parseString "Supported: ,timer\n" =
      .error (.unexpectedToken TokenTypes.ID "," 11) :=
  rfl

/-- C6: parsing the Digest example with `AuthorizationParser.parse` succeeds
and returns an `Authorization` whose scheme is `"Digest"` and whose
auth-parameter sequence is exactly
`[("realm", "example.com"), ("nonce", "abc123")]`, in order. -/
theorem authorizationParse_digest_example :
    (AuthorizationParser.parseString
        "Authorization: Digest realm=\"example.com\", nonce=\"abc123\"\n").map
      (fun p => (p.1.scheme, p.1.params)) =
      .ok ("Digest", [("realm", "example.com"), ("nonce", "abc123")]) :=
  rfl

/-- C8: parsing the same string twice with two independent
`SupportedParser` instances (each owning a fresh lexer built from the
string) yields structurally equal results: both fail, or both succeed with
option-tag lists of equal length carrying equal tags in the same order. -/
theorem supportedParse_deterministic (s : String) :
    (∃ e1 e2, SupportedParser.parse (SupportedParser.ofString s) = .error e1 ∧
        SupportedParser.parse (SupportedParser.ofString s) = .error e2) ∨
    (∃ l1 l2 lx1 lx2,
        SupportedParser.parse (SupportedParser.ofString s) = .ok (l1, lx1) ∧
        SupportedParser.parse (SupportedParser.ofString s) = .ok (l2, lx2) ∧
        l1.length = l2.length ∧
        l1.map Supported.getOptionTag = l2.map Supported.getOptionTag) := by
  cases h : SupportedParser.parse (SupportedParser.ofString s) with
  | error e => exact Or.inl ⟨e, e, rfl, rfl⟩
  | ok p => exact Or.inr ⟨p.1, p.1, p.2, p.2, rfl, rfl, rfl, rfl⟩

/-- C10: constructing `SupportedParser`, `AuthorizationParser` or `ToParser`
around a borrowed lexer always switches that lexer's active context to
`"command_keywordLexer"`, whatever context the caller had selected, while
leaving the cursor position and buffer unchanged; construction is a total
function, so it never raises. -/
theorem constructors_select_command_keyword_context (lx : Lexer) :
    (SupportedParser.ofLexer lx).context = "command_keywordLexer" ∧
    (SupportedParser.ofLexer lx).ptr = lx.ptr ∧
    (SupportedParser.ofLexer lx).buffer = lx.buffer ∧
    (AuthorizationParser.ofLexer lx).context = "command_keywordLexer" ∧
    (AuthorizationParser.ofLexer lx).ptr = lx.ptr ∧
    (AuthorizationParser.ofLexer lx).buffer = lx.buffer ∧
    (ToParser.ofLexer lx).context = "command_keywordLexer" ∧
    (ToParser.ofLexer lx).ptr = lx.ptr ∧
    (ToParser.ofLexer lx).buffer = lx.buffer :=
  ⟨rfl, rfl, rfl, rfl, rfl, rfl, rfl, rfl, rfl⟩

/-- C1 counterexample: the input `"Supported: 100rel timer\n"`, whose value
portion does not conform to the comma-separated option-tag grammar (two
option-tags separated only by whitespace, no comma), is parsed successfully
by `SupportedParser.parse` into the two-tag list — the parser silently
accepts this malformed input instead of raising a parse failure. -/
theorem supportedParse_accepts_space_separated_tags :
    (SupportedParser.parseString "Supported: 100rel timer\n").map
      (fun p => p.1.map Supported.getOptionTag) = .ok ["100rel", "timer"] :=
  rfl

/-- C1 amended: `SupportedParser.parse` rejects some malformed value
portions (a leading comma with no preceding tag fails), but it does not
reject every input violating the comma-separated grammar: two option-tags
separated only by whitespace with no comma are silently accepted, each
whitespace-separated tag starting a fresh pass of the outer loop. -/
theorem supportedParse_malformed_handling :
    (∃ e, SupportedParser.parseString "Supported: ,timer\n" = .error e) ∧
    ∃ l lx, SupportedParser.parseString "Supported: 100rel timer\n" = .ok (l, lx) ∧
      l.map Supported.getOptionTag = ["100rel", "timer"] := by
  refine ⟨⟨.unexpectedToken TokenTypes.ID "," 11, rfl⟩, ?_⟩
  exact ⟨_, _, rfl, rfl⟩

theorem Lexer.SPorHT_buffer (lx : Lexer) : lx.SPorHT.buffer = lx.buffer := rfl

theorem Lexer.SPorHT_ptr_le (lx : Lexer) : lx.ptr ≤ lx.SPorHT.ptr :=
  Nat.le_add_right _ _

theorem Lexer.SPorHT_ptr_bound (lx : Lexer) (h : lx.ptr ≤ lx.buffer.length) :
    lx.SPorHT.ptr ≤ lx.buffer.length := by
  have hk : ((lx.buffer.drop lx.ptr).takeWhile (fun c => c == ' ' || c == '\t')).length
      ≤ (lx.buffer.drop lx.ptr).length := (List.takeWhile_sublist _).length_le
  have hd : (lx.buffer.drop lx.ptr).length = lx.buffer.length - lx.ptr :=
    List.length_drop _ _
  simp only [Lexer.SPorHT, Lexer.advance]
  omega

theorem Lexer.scanToken_ok {lx : Lexer} {t : Token} {lx' : Lexer}
    (h : lx.scanToken = .ok (t, lx')) :
    lx'.buffer = lx.buffer ∧ lx'.context = lx.context ∧
      lx'.currentMatched = lx.currentMatched ∧
      lx.ptr < lx'.ptr ∧ lx'.ptr ≤ lx.buffer.length := by
  unfold Lexer.scanToken at h
  split at h
  · exact absurd h (by simp)
  · rename_i c cs heq
    have hlen : (lx.buffer.drop lx.ptr).length = lx.buffer.length - lx.ptr :=
      List.length_drop _ _
    rw [heq] at hlen
    simp only [List.length_cons] at hlen
    split at h
    · have htw : (cs.takeWhile isIdentChar).length ≤ cs.length :=
        (List.takeWhile_sublist _).length_le
      simp only [Except.ok.injEq, Prod.mk.injEq] at h
      obtain ⟨-, hlx⟩ := h
      subst hlx
      refine ⟨rfl, rfl, rfl, ?_, ?_⟩ <;>
        simp only [Lexer.advance, List.length_cons] <;> omega
    · split at h
      · split at h
        · rename_i hq
          simp only [Except.ok.injEq, Prod.mk.injEq] at h
          obtain ⟨-, hlx⟩ := h
          subst hlx
          refine ⟨rfl, rfl, rfl, ?_, ?_⟩ <;> simp only [Lexer.advance] <;> omega
        · exact absurd h (by simp)
      · simp only [Except.ok.injEq, Prod.mk.injEq] at h
        obtain ⟨-, hlx⟩ := h
        subst hlx
        refine ⟨rfl, rfl, rfl, ?_, ?_⟩ <;> simp only [Lexer.advance] <;> omega

theorem Lexer.scanToken_error {lx : Lexer} {e : ParseError}
    (h : lx.scanToken = .error e) : e ≠ ParseError.fuelExhausted := by
  unfold Lexer.scanToken at h
  split at h
  · simp only [Except.error.injEq] at h; subst h; simp
  · split at h
    · exact absurd h (by simp)
    · split at h
      · split at h
        · exact absurd h (by simp)
        · simp only [Except.error.injEq] at h; subst h; simp
      · exact absurd h (by simp)

theorem Lexer.matchChar_ok {lx : Lexer} {c : Char} {lx' : Lexer}
    (h : lx.matchChar c = .ok lx') :
    lx' = lx.advance 1 ∧ lx.lookAhead 0 = some c ∧ lx.ptr < lx.buffer.length := by
  unfold Lexer.matchChar at h
  split at h
  · exact absurd h (by simp)
  · rename_i heq
    rename_i a
    have hlt : lx.ptr < lx.buffer.length := by
      have hd : (lx.buffer.drop (lx.ptr + 0)).length = lx.buffer.length - (lx.ptr + 0) :=
        List.length_drop _ _
      unfold Lexer.lookAhead at heq
      cases hdd : lx.buffer.drop (lx.ptr + 0) with
      | nil => rw [hdd] at heq; exact absurd heq (by simp)
      | cons x xs => rw [hdd] at hd; simp only [List.length_cons] at hd; omega
    split at h
    · rename_i hac
      simp only [Except.ok.injEq] at h
      subst h
      refine ⟨rfl, ?_, hlt⟩
      rw [heq, eq_of_beq hac]
    · exact absurd h (by simp)

theorem Lexer.matchChar_error {lx : Lexer} {c : Char} {e : ParseError}
    (h : lx.matchChar c = .error e) : e ≠ ParseError.fuelExhausted := by
  unfold Lexer.matchChar at h
  split at h
  · simp only [Except.error.injEq] at h; subst h; simp
  · split at h
    · exact absurd h (by simp)
    · simp only [Except.error.injEq] at h; subst h; simp

theorem Lexer.matchToken_ok {lx : Lexer} {k : TokenTypes} {lx' : Lexer}
    (h : lx.matchToken k = .ok lx') :
    lx'.buffer = lx.buffer ∧ lx.ptr < lx'.ptr ∧ lx'.ptr ≤ lx.buffer.length := by
  unfold Lexer.matchToken at h
  split at h
  · exact absurd h (by simp)
  · rename_i t lx1 heq
    obtain ⟨hb, -, -, hlt, hle⟩ := Lexer.scanToken_ok heq
    split at h
    · simp only [Except.ok.injEq] at h
      subst h
      exact ⟨hb, hlt, hle⟩
    · exact absurd h (by simp)

theorem Lexer.matchToken_error {lx : Lexer} {k : TokenTypes} {e : ParseError}
    (h : lx.matchToken k = .error e) : e ≠ ParseError.fuelExhausted := by
  unfold Lexer.matchToken at h
  split at h
  · rename_i heq
    simp only [Except.error.injEq] at h
    subst h
    exact Lexer.scanToken_error heq
  · split at h
    · exact absurd h (by simp)
    · simp only [Except.error.injEq] at h; subst h; simp

theorem Lexer.getNextToken_ok {lx : Lexer} {t : Token} {lx' : Lexer}
    (h : lx.getNextToken = .ok (t, lx')) :
    lx'.buffer = lx.buffer ∧ lx.ptr ≤ lx'.ptr ∧
      (lx.ptr ≤ lx.buffer.length → lx'.ptr ≤ lx.buffer.length) := by
  unfold Lexer.getNextToken at h
  split at h
  · simp only [Except.ok.injEq, Prod.mk.injEq] at h
    obtain ⟨-, hlx⟩ := h
    subst hlx
    exact ⟨rfl, Nat.le_refl _, fun hb => hb⟩
  · obtain ⟨hb, -, -, hlt, hle⟩ := Lexer.scanToken_ok h
    exact ⟨hb, Nat.le_of_lt hlt, fun _ => hle⟩

theorem Lexer.getNextToken_error {lx : Lexer} {e : ParseError}
    (h : lx.getNextToken = .error e) : e ≠ ParseError.fuelExhausted := by
  unfold Lexer.getNextToken at h
  split at h
  · exact absurd h (by simp)
  · exact Lexer.scanToken_error h

theorem HeaderParser.headerName_ok {lx : Lexer} {k : TokenTypes} {lx' : Lexer}
    (h : HeaderParser.headerName lx k = .ok lx') :
    lx'.buffer = lx.buffer ∧ lx'.ptr ≤ lx.buffer.length := by
  unfold HeaderParser.headerName at h
  split at h
  · exact absurd h (by simp)
  · rename_i t lx1 heq
    obtain ⟨hb1, -, -, -, hle1⟩ := Lexer.scanToken_ok heq
    split at h
    · split at h
      · exact absurd h (by simp)
      · rename_i lx2 heq2
        obtain ⟨hlx2, -, hlt2⟩ := Lexer.matchChar_ok heq2
        simp only [Except.ok.injEq] at h
        subst h
        subst hlx2
        constructor
        · rw [Lexer.SPorHT_buffer]; simp only [Lexer.advance]; exact hb1
        · have hbound : (lx1.advance 1).ptr ≤ (lx1.advance 1).buffer.length := by
            simp only [Lexer.advance]
            omega
          rw [← hb1]
          exact Lexer.SPorHT_ptr_bound (lx1.advance 1) hbound
    · exact absurd h (by simp)

theorem HeaderParser.headerName_error {lx : Lexer} {k : TokenTypes} {e : ParseError}
    (h : HeaderParser.headerName lx k = .error e) : e ≠ ParseError.fuelExhausted := by
  unfold HeaderParser.headerName at h
  split at h
  · rename_i heq
    simp only [Except.error.injEq] at h
    subst h
    exact Lexer.scanToken_error heq
  · split at h
    · split at h
      · rename_i heq2
        simp only [Except.error.injEq] at h
        subst h
        exact Lexer.matchChar_error heq2
      · exact absurd h (by simp)
    · simp only [Except.error.injEq] at h; subst h; simp

theorem supportedInner_ok {fuel : Nat} {lx : Lexer} {acc l : List Supported} {lx' : Lexer}
    (h : supportedInner fuel lx acc = .ok (l, lx')) :
    lx'.buffer = lx.buffer ∧ lx.ptr ≤ lx'.ptr ∧
      (lx.ptr ≤ lx.buffer.length → lx'.ptr ≤ lx.buffer.length) ∧
      ∃ tail, l = acc ++ tail ∧ ∀ sup ∈ tail, sup.headerName = none := by
  induction fuel generalizing lx acc l lx' with
  | zero => exact absurd h (by simp [supportedInner])
  | succ fuel ih =>
    rw [supportedInner] at h
    split at h
    · cases hm : lx.matchChar ',' with
      | error e => simp only [hm] at h; exact absurd h (by simp)
      | ok lx1 =>
        simp only [hm] at h
        obtain ⟨hlx1, -, hlt1⟩ := Lexer.matchChar_ok hm
        cases hmt : (lx1.SPorHT).matchToken TokenTypes.ID with
        | error e => simp only [hmt] at h; exact absurd h (by simp)
        | ok lx2 =>
          simp only [hmt] at h
          obtain ⟨hb2, hlt2, hle2⟩ := Lexer.matchToken_ok hmt
          cases hgt : lx2.getNextToken with
          | error e => simp only [hgt] at h; exact absurd h (by simp)
          | ok p =>
            obtain ⟨tok, lx3⟩ := p
            simp only [hgt] at h
            obtain ⟨hb3, hle3, hbd3⟩ := Lexer.getNextToken_ok hgt
            obtain ⟨ihb, ihle, ihbd, tail, htail, hnone⟩ := ih h
            subst hlx1
            have e1 : (lx.advance 1).buffer = lx.buffer := rfl
            have e2 : ((lx.advance 1).SPorHT).buffer = (lx.advance 1).buffer := rfl
            have e3 : (lx3.SPorHT).buffer = lx3.buffer := rfl
            have p1 : (lx.advance 1).ptr = lx.ptr + 1 := rfl
            have p2 : (lx.advance 1).ptr ≤ ((lx.advance 1).SPorHT).ptr :=
              Lexer.SPorHT_ptr_le _
            have p3 : lx3.ptr ≤ (lx3.SPorHT).ptr := Lexer.SPorHT_ptr_le _
            have bd3 : lx3.ptr ≤ lx3.buffer.length := by
              rw [hb3]
              apply hbd3
              rw [hb2]
              exact hle2
            have bd4 : (lx3.SPorHT).ptr ≤ lx3.buffer.length :=
              Lexer.SPorHT_ptr_bound _ bd3
            refine ⟨?_, ?_, ?_, ?_⟩
            · rw [ihb, e3, hb3, hb2, e2, e1]
            · omega
            · intro hstart
              have hres := ihbd (by rw [e3]; exact bd4)
              rw [e3, hb3, hb2, e2, e1] at hres
              exact hres
            · refine ⟨⟨none, some tok.value⟩ :: tail, ?_, ?_⟩
              · rw [htail, List.append_assoc, List.singleton_append]
              · intro sup hsup
                rcases List.mem_cons.mp hsup with hh | hh
                · rw [hh]
                · exact hnone sup hh
    · simp only [Except.ok.injEq, Prod.mk.injEq] at h
      obtain ⟨hl, hlx⟩ := h
      subst hl
      subst hlx
      exact ⟨rfl, Nat.le_refl _, fun hb => hb, [], by simp, by simp⟩

theorem supportedInner_ne_fuel {fuel : Nat} {lx : Lexer} {acc : List Supported}
    (h1 : lx.ptr ≤ lx.buffer.length) (h2 : lx.buffer.length + 1 ≤ lx.ptr + fuel) :
    supportedInner fuel lx acc ≠ .error .fuelExhausted := by
  induction fuel generalizing lx acc with
  | zero => omega
  | succ fuel ih =>
    rw [supportedInner]
    split
    · cases hm : lx.matchChar ',' with
      | error e =>
        simp only [hm, ne_eq, Except.error.injEq]
        exact Lexer.matchChar_error hm
      | ok lx1 =>
        simp only [hm]
        obtain ⟨hlx1, -, hlt1⟩ := Lexer.matchChar_ok hm
        cases hmt : (lx1.SPorHT).matchToken TokenTypes.ID with
        | error e =>
          simp only [hmt, ne_eq, Except.error.injEq]
          exact Lexer.matchToken_error hmt
        | ok lx2 =>
          simp only [hmt]
          obtain ⟨hb2, hlt2, hle2⟩ := Lexer.matchToken_ok hmt
          cases hgt : lx2.getNextToken with
          | error e =>
            simp only [hgt, ne_eq, Except.error.injEq]
            exact Lexer.getNextToken_error hgt
          | ok p =>
            obtain ⟨tok, lx3⟩ := p
            simp only [hgt]
            obtain ⟨hb3, hle3, hbd3⟩ := Lexer.getNextToken_ok hgt
            subst hlx1
            have e1 : (lx.advance 1).buffer = lx.buffer := rfl
            have e2 : ((lx.advance 1).SPorHT).buffer = (lx.advance 1).buffer := rfl
            have e3 : (lx3.SPorHT).buffer = lx3.buffer := rfl
            have p1 : (lx.advance 1).ptr = lx.ptr + 1 := rfl
            have p2 : (lx.advance 1).ptr ≤ ((lx.advance 1).SPorHT).ptr :=
              Lexer.SPorHT_ptr_le _
            have p3 : lx3.ptr ≤ (lx3.SPorHT).ptr := Lexer.SPorHT_ptr_le _
            have bd3 : lx3.ptr ≤ lx3.buffer.length := by
              rw [hb3]
              apply hbd3
              rw [hb2]
              exact hle2
            have bd4 : (lx3.SPorHT).ptr ≤ lx3.buffer.length :=
              Lexer.SPorHT_ptr_bound _ bd3
            have hlen : (lx3.SPorHT).buffer.length = lx.buffer.length := by
              rw [e3, hb3, hb2, e2, e1]
            have hlen2 : lx2.buffer.length = lx.buffer.length := by
              rw [hb2, e2, e1]
            apply ih
            · rw [e3]
              exact bd4
            · rw [hlen]
              omega
    · simp

theorem supportedOuter_ok_lookAhead {fuel : Nat} {lx : Lexer} {acc l : List Supported}
    {lx' : Lexer} (h : supportedOuter fuel lx acc = .ok (l, lx')) :
    lx'.lookAhead 0 = some '\n' := by
  induction fuel generalizing lx acc l lx' with
  | zero => exact absurd h (by simp [supportedOuter])
  | succ fuel ih =>
    rw [supportedOuter] at h
    split at h
    · rename_i hnl
      simp only [Except.ok.injEq, Prod.mk.injEq] at h
      obtain ⟨-, hlx⟩ := h
      subst hlx
      exact hnl
    · cases hmt : (lx.SPorHT).matchToken TokenTypes.ID with
      | error e => simp only [hmt] at h; exact absurd h (by simp)
      | ok lx2 =>
        simp only [hmt] at h
        cases hgt : lx2.getNextToken with
        | error e => simp only [hgt] at h; exact absurd h (by simp)
        | ok p =>
          obtain ⟨tok, lx3⟩ := p
          simp only [hgt] at h
          cases hin : supportedInner (lx3.SPorHT.buffer.length + 1) lx3.SPorHT
              (acc ++ [⟨some SupportedParser.SUPPORTED, some tok.value⟩]) with
          | error e => simp only [hin] at h; exact absurd h (by simp)
          | ok q =>
            obtain ⟨acc2, lx5⟩ := q
            simp only [hin] at h
            exact ih h

theorem supportedOuter_ne_fuel {fuel : Nat} {lx : Lexer} {acc : List Supported}
    (h1 : lx.ptr ≤ lx.buffer.length) (h2 : lx.buffer.length + 1 ≤ lx.ptr + fuel) :
    supportedOuter fuel lx acc ≠ .error .fuelExhausted := by
  induction fuel generalizing lx acc with
  | zero => omega
  | succ fuel ih =>
    rw [supportedOuter]
    split
    · simp
    · cases hmt : (lx.SPorHT).matchToken TokenTypes.ID with
      | error e =>
        simp only [hmt, ne_eq, Except.error.injEq]
        exact Lexer.matchToken_error hmt
      | ok lx2 =>
        simp only [hmt]
        obtain ⟨hb2, hlt2, hle2⟩ := Lexer.matchToken_ok hmt
        cases hgt : lx2.getNextToken with
        | error e =>
          simp only [hgt, ne_eq, Except.error.injEq]
          exact Lexer.getNextToken_error hgt
        | ok p =>
          obtain ⟨tok, lx3⟩ := p
          simp only [hgt]
          obtain ⟨hb3, hle3, hbd3⟩ := Lexer.getNextToken_ok hgt
          have es : (lx.SPorHT).buffer = lx.buffer := rfl
          have ps : lx.ptr ≤ (lx.SPorHT).ptr := Lexer.SPorHT_ptr_le _
          have e3 : (lx3.SPorHT).buffer = lx3.buffer := rfl
          have p3 : lx3.ptr ≤ (lx3.SPorHT).ptr := Lexer.SPorHT_ptr_le _
          have bd3 : lx3.ptr ≤ lx3.buffer.length := by
            rw [hb3]
            apply hbd3
            rw [hb2]
            exact hle2
          have bd4 : (lx3.SPorHT).ptr ≤ lx3.buffer.length :=
            Lexer.SPorHT_ptr_bound _ bd3
          have hlen : (lx3.SPorHT).buffer.length = lx.buffer.length := by
            rw [e3, hb3, hb2, es]
          cases hin : supportedInner (lx3.SPorHT.buffer.length + 1) lx3.SPorHT
              (acc ++ [⟨some SupportedParser.SUPPORTED, some tok.value⟩]) with
          | error e =>
            simp only [hin, ne_eq, Except.error.injEq]
            intro hcontra
            subst hcontra
            exact supportedInner_ne_fuel (by rw [e3]; exact bd4) (by omega) hin
          | ok q =>
            obtain ⟨acc2, lx5⟩ := q
            simp only [hin]
            obtain ⟨ib, ile, ibd, -⟩ := supportedInner_ok hin
            have hbd5 : lx5.ptr ≤ (lx3.SPorHT).buffer.length := by
              apply ibd
              rw [e3]
              exact bd4
            apply ih
            · rw [ib]
              exact hbd5
            · rw [ib, hlen]
              rw [es] at hle2
              rw [hlen] at hbd5
              omega

/-- C7: for every bounded input string, `SupportedParser.parse` terminates:
run with fuel `buffer.length + 1`, its outer tag loop and inner
comma-continuation loop never exhaust the fuel, because each iteration
either consumes at least one input character or raises a parse failure. -/
theorem supportedParse_terminates (s : String) :
    SupportedParser.parseString s ≠ .error .fuelExhausted := by
  unfold SupportedParser.parseString SupportedParser.parse
  cases hh : HeaderParser.headerName (SupportedParser.ofString s) TokenTypes.SUPPORTED with
  | error e =>
    simp only [hh, ne_eq, Except.error.injEq]
    exact HeaderParser.headerName_error hh
  | ok lx1 =>
    simp only [hh]
    obtain ⟨hb, hle⟩ := HeaderParser.headerName_ok hh
    apply supportedOuter_ne_fuel
    · rw [hb]
      exact hle
    · omega

/-- C2 counterexample: parsing `"Supported: 100rel\n"` succeeds, but the
final lexer cursor still sees the terminating newline as its lookahead (it
rests at offset 17, the newline's own offset) — the cursor is before the
newline marker, not after it, so `SupportedParser.parse` does not land the
cursor past the terminating newline. -/
theorem supportedParse_stops_before_newline :
    (SupportedParser.parseString "Supported: 100rel\n").map
      (fun p => (p.2.lookAhead 0, p.2.ptr)) = .ok (some '\n', 17) :=
  rfl

/-- C2 amended: on success `ToParser.parse` lands the cursor exactly one
position past a newline character (it matches the terminating newline); on
success `SupportedParser.parse` lands the cursor exactly at the terminating
newline, which is still the lookahead, never past it; and
`AuthorizationParser.parse`, which returns without consuming the newline,
also rests at the newline on the conforming Digest example. -/
theorem parse_final_cursor_at_line_marker :
    (∀ lx l lx', SupportedParser.parse lx = .ok (l, lx') →
        lx'.lookAhead 0 = some '\n') ∧
    (∀ lx t lx', ToParser.parse lx = .ok (t, lx') →
        1 ≤ lx'.ptr ∧ (lx'.buffer.drop (lx'.ptr - 1)).head? = some '\n') ∧
    (AuthorizationParser.parseString
        "Authorization: Digest realm=\"example.com\", nonce=\"abc123\"\n").map
      (fun p => p.2.lookAhead 0) = .ok (some '\n') := by
  refine ⟨?_, ?_, rfl⟩
  · intro lx l lx' h
    unfold SupportedParser.parse at h
    cases hh : HeaderParser.headerName lx TokenTypes.SUPPORTED with
    | error e => simp only [hh] at h; exact absurd h (by simp)
    | ok lx1 =>
      simp only [hh] at h
      exact supportedOuter_ok_lookAhead h
  · intro lx t lx' h
    unfold ToParser.parse at h
    cases hh : HeaderParser.headerName lx TokenTypes.TO with
    | error e => simp only [hh] at h; exact absurd h (by simp)
    | ok lx1 =>
      simp only [hh] at h
      cases ha : AddressParametersParser.parse lx1 with
      | error e => simp only [ha] at h; exact absurd h (by simp)
      | ok q =>
        obtain ⟨tv, lx2⟩ := q
        simp only [ha] at h
        cases hmc : lx2.matchChar '\n' with
        | error e => simp only [hmc] at h; exact absurd h (by simp)
        | ok lx3 =>
          simp only [hmc, Except.ok.injEq, Prod.mk.injEq] at h
          obtain ⟨-, hlx⟩ := h
          subst hlx
          obtain ⟨hlx3, hla, -⟩ := Lexer.matchChar_ok hmc
          subst hlx3
          refine ⟨Nat.le_add_left 1 lx2.ptr, ?_⟩
          have hp : (lx2.advance 1).ptr - 1 = lx2.ptr := by
            simp [Lexer.advance]
          rw [hp]
          exact hla

/-- C2 witness: applying the supported-parser conjunct at the conforming
input `"Supported: 100rel\n"`, whose successful parse ends with the lexer at
offset 17, looking at the newline. -/
theorem parse_final_cursor_at_line_marker_witness :
    Lexer.lookAhead
      { buffer := ("Supported: 100rel\n").data, ptr := 17,
        context := "command_keywordLexer", currentMatched := none } 0 = some '\n' :=
  parse_final_cursor_at_line_marker.1 (SupportedParser.ofString "Supported: 100rel\n")
    [⟨some "Supported", some "100rel"⟩]
    { buffer := ("Supported: 100rel\n").data, ptr := 17,
      context := "command_keywordLexer", currentMatched := none } rfl

/-- C5: each parser's `parse` first matches the header-name token
case-insensitively against its expected token kind; when that match fails,
the whole parse fails with the very error produced by the header-name step,
so no value token is consumed.  Case-insensitivity is witnessed by the
mixed-case header names being accepted. -/
theorem headerName_checked_before_value :
    (∀ lx e, HeaderParser.headerName lx TokenTypes.SUPPORTED = .error e →
        SupportedParser.parse lx = .error e) ∧
    (∀ lx e, HeaderParser.headerName lx TokenTypes.AUTHORIZATION = .error e →
        AuthorizationParser.parse lx = .error e) ∧
    (∀ lx e, HeaderParser.headerName lx TokenTypes.TO = .error e →
        ToParser.parse lx = .error e) ∧
    (SupportedParser.parseString "sUPPORTED: x\n").map
      (fun p => p.1.map Supported.getOptionTag) = .ok ["x"] ∧
    (AuthorizationParser.parseString "aUTHORIZATION: Digest a=b\n").map
      (fun p => (p.1.scheme, p.1.params)) = .ok ("Digest", [("a", "b")]) ∧
    (ToParser.parseString "tO: <sip:bob@example.com>\n").map (fun p => p.1) =
      .ok ⟨none, "sip:bob@example.com", []⟩ := by
  refine ⟨?_, ?_, ?_, rfl, rfl, rfl⟩
  · intro lx e h
    unfold SupportedParser.parse
    simp only [h]
  · intro lx e h
    unfold AuthorizationParser.parse
    simp only [h]
  · intro lx e h
    unfold ToParser.parse
    simp only [h]

/-- C5 witness: a `SupportedParser` run on `"From: x\n"` fails with the
header-name mismatch reported by the header-name step, at offset 0. -/
theorem headerName_checked_before_value_witness :
    SupportedParser.parse (SupportedParser.ofString "From: x\n") =
      .error (.headerNameMismatch TokenTypes.SUPPORTED "From" 0) :=
  headerName_checked_before_value.1 (SupportedParser.ofString "From: x\n")
    (.headerNameMismatch TokenTypes.SUPPORTED "From" 0) rfl

/-- C9: every `Supported` element appended by the inner comma-continuation
loop of `SupportedParser.parse` has its option tag set but its header name
never set, while the first element of each outer-loop pass carries the
header name; hence `"Supported: 100rel, timer\n"` yields a first element
with header name `"Supported"` and a `"timer"` element with no header
name. -/
theorem supportedInner_headerName_unset :
    (∀ fuel lx acc l lx', supportedInner fuel lx acc = .ok (l, lx') →
        ∃ tail, l = acc ++ tail ∧ ∀ sup ∈ tail, sup.headerName = none) ∧
    (SupportedParser.parseString "Supported: 100rel, timer\n").map (fun p => p.1) =
      .ok [⟨some "Supported", some "100rel"⟩, ⟨none, some "timer"⟩] :=
  ⟨fun _ _ _ _ _ h => (supportedInner_ok h).2.2.2, rfl⟩

/-- C9 witness: applying the inner-loop conjunct to the concrete run of the
comma loop over `", timer\n"` inside `"Supported: 100rel, timer\n"`. -/
theorem supportedInner_headerName_unset_witness :
    ∃ tail, [(⟨none, some "timer"⟩ : Supported)] = [] ++ tail ∧
      ∀ sup ∈ tail, sup.headerName = none :=
  supportedInner_headerName_unset.1 26
    { buffer := ("Supported: 100rel, timer\n").data, ptr := 17,
      context := "command_keywordLexer", currentMatched := none }
    [] [⟨none, some "timer"⟩]
    { buffer := ("Supported: 100rel, timer\n").data, ptr := 24,
      context := "command_keywordLexer", currentMatched := none } rfl

/-- C7 witness: the termination theorem instantiated at a concrete input. -/
theorem supportedParse_terminates_witness :
    SupportedParser.parseString "Supported: 100rel\n" ≠ .error .fuelExhausted :=
  supportedParse_terminates "Supported: 100rel\n"

/-- C8 witness: the determinism theorem instantiated at a concrete input. -/
theorem supportedParse_deterministic_witness :
    (∃ e1 e2, SupportedParser.parse (SupportedParser.ofString "Supported: 100rel\n") = .error e1 ∧
        SupportedParser.parse (SupportedParser.ofString "Supported: 100rel\n") = .error e2) ∨
    (∃ l1 l2 lx1 lx2,
        SupportedParser.parse (SupportedParser.ofString "Supported: 100rel\n") = .ok (l1, lx1) ∧
        SupportedParser.parse (SupportedParser.ofString "Supported: 100rel\n") = .ok (l2, lx2) ∧
        l1.length = l2.length ∧
        l1.map Supported.getOptionTag = l2.map Supported.getOptionTag) :=
  supportedParse_deterministic "Supported: 100rel\n"

/-- C10 witness: the constructor theorem instantiated at a lexer whose
caller had pre-selected a different context. -/
theorem constructors_select_command_keyword_context_witness :
    (SupportedParser.ofLexer (Lexer.ofString "sdp_announce_lexer" "To: x\n")).context =
        "command_keywordLexer" ∧
    (SupportedParser.ofLexer (Lexer.ofString "sdp_announce_lexer" "To: x\n")).ptr =
        (Lexer.ofString "sdp_announce_lexer" "To: x\n").ptr ∧
    (SupportedParser.ofLexer (Lexer.ofString "sdp_announce_lexer" "To: x\n")).buffer =
        (Lexer.ofString "sdp_announce_lexer" "To: x\n").buffer ∧
    (AuthorizationParser.ofLexer (Lexer.ofString "sdp_announce_lexer" "To: x\n")).context =
        "command_keywordLexer" ∧
    (AuthorizationParser.ofLexer (Lexer.ofString "sdp_announce_lexer" "To: x\n")).ptr =
        (Lexer.ofString "sdp_announce_lexer" "To: x\n").ptr ∧
    (AuthorizationParser.ofLexer (Lexer.ofString "sdp_announce_lexer" "To: x\n")).buffer =
        (Lexer.ofString "sdp_announce_lexer" "To: x\n").buffer ∧
    (ToParser.ofLexer (Lexer.ofString "sdp_announce_lexer" "To: x\n")).context =
        "command_keywordLexer" ∧
    (ToParser.ofLexer (Lexer.ofString "sdp_announce_lexer" "To: x\n")).ptr =
        (Lexer.ofString "sdp_announce_lexer" "To: x\n").ptr ∧
    (ToParser.ofLexer (Lexer.ofString "sdp_announce_lexer" "To: x\n")).buffer =
        (Lexer.ofString "sdp_announce_lexer" "To: x\n").buffer :=
  constructors_select_command_keyword_context (Lexer.ofString "sdp_announce_lexer" "To: x\n")
